import Mathlib

/-!
Verification of the result-reconciliation core of `src/app.py`
(antismash-web): `parse_gbk_for_proteins` (CDS reconciliation across
primary and region GenBank files), `extract_functional_annotation`
(priority chain over a feature's qualifier bag), and
`parse_clusters_from_regions` (cluster aggregation).

Modelling conventions:
* Python string methods are modelled by structurally recursive
  functions over `List Char` (`strip`, `lower`, one-separator `split`,
  `replace`, `join`, `startswith`, `in`), with ASCII semantics.
* A BioPython qualifier bag maps keys to non-empty lists of strings;
  we keep one field per key that the code reads, with `[]` encoding an
  absent key (BioPython never yields a present key with an empty list).
* `SeqIO.parse` is a lazy iterator that may raise mid-file.  A file is
  modelled by `records : List SeqRecord` — the records the iterator
  yields before it either finishes or raises — together with a
  `failed : Bool` flag recording whether iteration subsequently raised.
  The per-file `try/except` wrappers log the exception and continue, so
  a failing file contributes exactly its yielded records (nothing when
  it is unreadable or malformed before the first record) and the flag
  itself is never consulted by the computation.
* The Python dict `proteins_by_gene` is modelled by an insertion-ordered
  association list: assignment to an existing key replaces the value in
  place, assignment to a fresh key appends.
* File lists are given to the functions in the order Python's
  `sorted(...)` would produce; since sorting commutes with `filter`,
  passing the sorted directory listing and filtering preserves the
  code's processing order.
* The auxiliary `is_from_region` marker is written by the code, never
  read, and popped before returning, so it is omitted from the model.
* Line 327's `round(sequence_length / 1000, 2)` is computed by the
  program in IEEE-754 double arithmetic.  The `size_kb` field is given
  a value here by an exact-rational idealization (`round2`); this is an
  approximation that can differ from the program at representation
  boundaries of the double (e.g. `sequence_length = 2675`), and no
  property of `size_kb` is asserted beyond the fields that do not
  depend on it.
-/

namespace AntismashWeb

/-! ### Python string operations over `List Char` -/

/-- Whether `sub` occurs as a contiguous sublist of `s`. -/
def listContains (s sub : List Char) : Bool :=
  match s with
  | [] => sub.isEmpty
  | _ :: t => sub.isPrefixOf s || listContains t sub

/-- Python's `sub in s` substring test. -/
def containsSub (s sub : String) : Bool := listContains s.toList sub.toList

/-- Python's `s.strip()` (ASCII whitespace). -/
def strip (s : String) : String :=
  String.mk (((s.toList.dropWhile Char.isWhitespace).reverse.dropWhile Char.isWhitespace).reverse)

/-- Python's `s.lower()` (ASCII letters). -/
def lower (s : String) : String := String.mk (s.toList.map Char.toLower)

/-- Python's `s.split(sep)` for a one-character separator. -/
def splitOnChar (c : Char) : List Char → List (List Char)
  | [] => [[]]
  | a :: rest =>
    let r := splitOnChar c rest
    if a = c then [] :: r
    else
      match r with
      | [] => [[a]]
      | h :: t => (a :: h) :: t

/-- Python's `s.split(c)` for a one-character separator (every separator
the code splits on — `":"`, `")"`, `"("`, `"."` — is one character). -/
def splitStr (s : String) (c : Char) : List String :=
  (splitOnChar c s.toList).map String.mk

/-- All-occurrence replacement, left to right, fuelled by the input
length so the recursion is structural. -/
def replaceFuel (pat rep : List Char) : Nat → List Char → List Char
  | _, [] => []
  | 0, l => l
  | fuel + 1, c :: rest =>
    if pat.isPrefixOf (c :: rest) then
      rep ++ replaceFuel pat rep fuel ((c :: rest).drop pat.length)
    else c :: replaceFuel pat rep fuel rest

/-- Python's `s.replace(pat, rep)` (for non-empty `pat`). -/
def replaceStr (s pat rep : String) : String :=
  String.mk (replaceFuel pat.toList rep.toList s.toList.length s.toList)

/-- Python's `sep.join(parts)`. -/
def joinWith (sep : String) : List String → String
  | [] => ""
  | [a] => a
  | a :: rest => a ++ sep ++ joinWith sep rest

/-- Python's `s.startswith(pre)`. -/
def startsWith (pre s : String) : Bool := pre.toList.isPrefixOf s.toList

/-! ### Data model -/

/-- The qualifier keys read anywhere in `app.py`.  `[]` encodes an absent
key; a present key holds the (non-empty) list of qualifier values. -/
structure Qualifiers where
  gene : List String := []
  locus_tag : List String := []
  product : List String := []
  translation : List String := []
  gene_functions : List String := []
  gene_kind : List String := []
  sec_met_domain : List String := []
deriving DecidableEq

/-- The all-absent qualifier bag. -/
def Qualifiers.empty : Qualifiers := {}

/-- Python `qualifiers.get(key, default)` where `[]` encodes absence. -/
def getQ (present dflt : List String) : List String :=
  if present = [] then dflt else present

/-- Python `qualifiers.get(key, [""])[0]`. -/
def firstQ (l : List String) : String := (getQ l [""]).headD ""

/-- Line 179/209/299: `qualifiers.get("gene", qualifiers.get("locus_tag", [""]))[0]`. -/
def geneOf (q : Qualifiers) : String :=
  (getQ q.gene (getQ q.locus_tag [""])).headD ""

/-- Lines 143-153 of `extract_functional_annotation`: the value the
`gene_functions` loop would return for one entry, or `none` if the loop
`continue`s past it. -/
def funcTypeOf (func : String) : Option String :=
  if containsSub (lower func) "biosynthetic" then
    if containsSub func ":" then
      let t := strip ((splitStr func ':').getLastD "")
      if t ≠ "" then some t else none
    else if containsSub func ")" then
      let t := strip ((splitStr func ')').getLastD "")
      if t ≠ "" then some t else none
    else none
  else none

/-- Lines 161-167: the value the `sec_met_domain` loop would return for
one entry, or `none` if the loop skips it. -/
def domainNameOf (domain : String) : Option String :=
  if containsSub domain "(" then
    let n := strip ((splitStr domain '(').headD "")
    if n ≠ "" then some ("domain: " ++ n) else none
  else none

/-- Lines 132-169: `extract_functional_annotation(qualifiers)`.
Priority: stripped `product`, then the first `gene_functions` entry the
loop accepts, then stripped `gene_kind`, then the first `sec_met_domain`
entry with a usable name, else `""`. -/
def extract_functional_annotation (q : Qualifiers) : String :=
  let product := firstQ q.product
  if strip product ≠ "" then strip product
  else
    match q.gene_functions.findSome? funcTypeOf with
    | some t => t
    | none =>
      let gene_kind := firstQ q.gene_kind
      if strip gene_kind ≠ "" then strip gene_kind
      else
        match q.sec_met_domain.findSome? domainNameOf with
        | some d => d
        | none => ""

/-- One BioPython feature: its type string, `str(feat.location)`, and
its qualifier bag. -/
structure Feature where
  ftype : String
  location : String
  qualifiers : Qualifiers
deriving DecidableEq

/-- One sequence record: `rec.id`, `len(rec.seq)` and its features. -/
structure SeqRecord where
  id : String
  seq_len : Nat
  features : List Feature
deriving DecidableEq

/-- One `.gbk` file of the run directory: base name (`gbk.name`), stem
(`gbk.stem`), the records the lazy `SeqIO.parse` iterator yields before
it finishes or raises, and whether it subsequently raised (`failed`).
An unreadable file, or one malformed before its first record, has
`records = []` and `failed = true`. -/
structure GbkFile where
  name : String
  stem : String
  records : List SeqRecord
  failed : Bool := false
deriving DecidableEq

/-- The records the `for rec in SeqIO.parse(...)` loop iterates before
any exception; the `except` clause swallows a subsequent failure, so
these are exactly the records the file contributes. -/
def recordsOf (f : GbkFile) : List SeqRecord := f.records

/-- The same file with a clean end of iteration: the computation never
consults `failed`, so results are invariant under this. -/
def clearFailed (f : GbkFile) : GbkFile := { f with failed := false }

/-- A reconciled protein dict (lines 187-196 / 226-235), without the
write-only `is_from_region` marker that line 242 pops before returning. -/
structure ProteinData where
  record_id : String
  gene : String
  product : String
  protein_seq : String
  aa_length : Nat
  location : String
  source_file : String
deriving DecidableEq

/-- Line 185/215: `key = f"{gene}_{location}"` of a stored protein. -/
def identityKey (p : ProteinData) : String := p.gene ++ "_" ++ p.location

/-- `proteins_by_gene`, a Python dict modelled as an insertion-ordered
association list with unique keys. -/
abbrev ProteinMap := List (String × ProteinData)

/-- Python `key in d` / `d[key]` lookup. -/
def alGet? (m : ProteinMap) (k : String) : Option ProteinData :=
  (m.find? (fun e => e.1 == k)).map (fun e => e.2)

/-- Python `d[key] = v`: replace in place if the key exists, else append. -/
def alSet (m : ProteinMap) (k : String) (v : ProteinData) : ProteinMap :=
  if m.any (fun e => e.1 == k) then
    m.map (fun e => if e.1 == k then (k, v) else e)
  else m ++ [(k, v)]

/-- Lines 177-196 / 207-212: the protein dict built from one CDS feature. -/
def cdsProtein (recId fileName : String) (feat : Feature) : ProteinData :=
  let q := feat.qualifiers
  let prot_seq := firstQ q.translation
  { record_id := recId
    gene := geneOf q
    product := extract_functional_annotation q
    protein_seq := prot_seq
    aa_length := prot_seq.length
    location := feat.location
    source_file := fileName }

/-- Line 184-185 / 214-215: the identity key derived from a CDS feature. -/
def cdsKey (feat : Feature) : String :=
  geneOf feat.qualifiers ++ "_" ++ feat.location

/-- Lines 176-197: handling of one feature of a primary file. -/
def mainStep (fileName recId : String) (m : ProteinMap) (feat : Feature) : ProteinMap :=
  if lower feat.ftype = "cds" then
    alSet m (cdsKey feat) (cdsProtein recId fileName feat)
  else m

/-- Lines 217-223: merge of a region-derived product into an existing
entry (overwrite `product` only when the new one is non-blank, then
append the region file name to `source_file`). -/
def regionMerge (old : ProteinData) (product fileName : String) : ProteinData :=
  let upd := if strip product ≠ "" then { old with product := product } else old
  { upd with source_file := upd.source_file ++ " + " ++ fileName }

/-- Lines 206-236: handling of one feature of a region file. -/
def regionStep (fileName recId : String) (m : ProteinMap) (feat : Feature) : ProteinMap :=
  if lower feat.ftype = "cds" then
    match alGet? m (cdsKey feat) with
    | some old =>
        alSet m (cdsKey feat)
          (regionMerge old ( extract_functional_annotation feat.qualifiers) fileName)
    | none => alSet m (cdsKey feat) (cdsProtein recId fileName feat)
  else m

/-- Lines 172-199: one primary file (all of its records). -/
def processMainFile (m : ProteinMap) (f : GbkFile) : ProteinMap :=
  (recordsOf f).foldl (fun acc rec => rec.features.foldl (mainStep f.name rec.id) acc) m

/-- Lines 201-238: one region file (all of its records). -/
def processRegionFile (m : ProteinMap) (f : GbkFile) : ProteinMap :=
  (recordsOf f).foldl (fun acc rec => rec.features.foldl (regionStep f.name rec.id) acc) m

/-- Line 128 / 255: `gbk.name.startswith("NC_") and "region" in gbk.name`. -/
def isRegionGbk (name : String) : Bool :=
  startsWith "NC_" name && containsSub name "region"

/-- Line 255 of `parse_clusters_from_regions`, textually the same
predicate as line 128. -/
def isRegionGbkClusters (name : String) : Bool :=
  startsWith "NC_" name && containsSub name "region"

/-- Line 127: `not gbk.name.startswith("NC_") or "region" not in gbk.name`. -/
def isMainGbk (name : String) : Bool :=
  !(startsWith "NC_" name) || !(containsSub name "region")

/-- Lines 117-247: `parse_gbk_for_proteins`.  `files` is the sorted
`.gbk` listing of the run directory. -/
def parse_gbk_for_proteins (files : List GbkFile) : List ProteinData :=
  let main_files := files.filter (fun f => isMainGbk f.name)
  let region_files := files.filter (fun f => isRegionGbk f.name)
  let m0 : ProteinMap := main_files.foldl processMainFile []
  let m1 : ProteinMap := region_files.foldl processRegionFile m0
  m1.map (fun e => e.2)

/-- One embedded gene summary of a cluster (lines 315-322). -/
structure GeneInfo where
  gene : String
  product : String
  location : String
  gene_functions : List String
  sec_met_domain : List String
  gene_kind : String
deriving DecidableEq

/-- Lines 296-322: the gene summary built from one CDS feature of a
region file, with the simplified product fallback of lines 306-313. -/
def clusterGene (feat : Feature) : GeneInfo :=
  let q := feat.qualifiers
  let gene := geneOf q
  let product := firstQ q.product
  let gene_functions := q.gene_functions
  let gene_kind := firstQ q.gene_kind
  let product :=
    if product = "" ∧ gene_functions ≠ [] then
      match gene_functions.find? (fun func => containsSub func ":") with
      | some func => strip ((splitStr func ':').getLastD "")
      | none => product
    else product
  let product := if product = "" ∧ gene_kind ≠ "" then gene_kind else product
  { gene := gene
    product := product
    location := feat.location
    gene_functions := gene_functions
    sec_met_domain := q.sec_met_domain
    gene_kind := gene_kind }

/-- The mutable fields of `cluster_info` updated by the feature loop
(lines 276-323). -/
structure ClusterAcc where
  products : List String
  cluster_type : String
  genes : List GeneInfo
  location_start : Option Int
  location_end : Option Int
deriving DecidableEq

/-- Lines 286-294: coordinate span parsing of a region feature.  The
`try` block mirrors Python: an unpack or `int(start)` failure leaves
both fields, an `int(end)` failure leaves `location_start` assigned. -/
def parseLocInto (acc : ClusterAcc) (location : String) : ClusterAcc :=
  if containsSub location "[" && containsSub location ":" then
    match splitStr
      (replaceStr (replaceStr (replaceStr (replaceStr location "[" "") "]" "") "(+)" "") "(-)" "")
      ':' with
    | [s, e] =>
      match s.toInt? with
      | some si =>
        match e.toInt? with
        | some ei => { acc with location_start := some si, location_end := some ei }
        | none => { acc with location_start := some si }
      | none => acc
    | _ => acc
  else acc

/-- Lines 276-323: one feature of the first record of a region file. -/
def clusterStep (acc : ClusterAcc) (feat : Feature) : ClusterAcc :=
  if lower feat.ftype = "region" then
    parseLocInto
      (if feat.qualifiers.product ≠ [] then
        { acc with products := feat.qualifiers.product,
                   cluster_type := joinWith " + " feat.qualifiers.product }
      else acc)
      feat.location
  else if lower feat.ftype = "cds" then
    { acc with genes := acc.genes ++ [clusterGene feat] }
  else acc

/-- One cluster summary (lines 262-336). -/
structure ClusterInfo where
  region_name : String
  region_number : String
  record_id : String
  sequence_length : Nat
  products : List String
  cluster_type : String
  genes : List GeneInfo
  location_start : Option Int
  location_end : Option Int
  source_file : String
  gene_count : Nat
  size_kb : ℚ
  biosynthetic_genes : Nat
  regulatory_genes : Nat
  transport_genes : Nat
deriving DecidableEq

/-- An exact-rational idealization of line 327's float `round(x, 2)`,
used only to give the `size_kb` field a value.  The program computes in
IEEE-754 doubles, which can differ from this at representation
boundaries (e.g. `2675 / 1000`), so this definition is not a faithful
model of the float computation. -/
def round2 (q : ℚ) : ℚ := ((round (q * 100) : ℤ) : ℚ) / 100

/-- Lines 262-338: the ClusterSummary built from one region file and the
first record it yields. -/
def buildCluster (f : GbkFile) (rec : SeqRecord) : ClusterInfo :=
  let acc0 : ClusterAcc :=
    { products := []
      cluster_type := "unknown"
      genes := []
      location_start := none
      location_end := none }
  let acc := rec.features.foldl clusterStep acc0
  { region_name := f.stem
    region_number := (splitStr f.stem '.').getLastD ""
    record_id := rec.id
    sequence_length := rec.seq_len
    products := acc.products
    cluster_type := acc.cluster_type
    genes := acc.genes
    location_start := acc.location_start
    location_end := acc.location_end
    source_file := f.name
    gene_count := acc.genes.length
    size_kb := round2 ((rec.seq_len : ℚ) / 1000)
    biosynthetic_genes :=
      (acc.genes.filter (fun g => g.gene_kind == "biosynthetic")).length
    regulatory_genes :=
      (acc.genes.filter (fun g => containsSub (lower g.product) "regulatory")).length
    transport_genes :=
      (acc.genes.filter (fun g => containsSub (lower g.product) "transport")).length }

/-- Lines 249-345: `parse_clusters_from_regions`.  Only the first record
of each region file is used (`break` at line 339); a raising or empty
file contributes nothing. -/
def parse_clusters_from_regions (files : List GbkFile) : List ClusterInfo :=
  let region_files := files.filter (fun f => isRegionGbkClusters f.name)
  region_files.foldl
    (fun clusters f =>
      match recordsOf f with
      | [] => clusters
      | rec :: _ => clusters ++ [buildCluster f rec])
    []

/-! ### The claim C4 priority chain, modelled from the spec's words -/

/-- First non-empty string of a list, else `""` ("first non-empty wins"). -/
def firstNonEmpty : List String → String
  | [] => ""
  | s :: rest => if s = "" then firstNonEmpty rest else s

/-- Modelled from the spec (step 2 of the chain): for a `gene_functions`
entry containing "biosynthetic" case-insensitively, the trimmed
substring after the last colon if the entry contains a colon, else the
trimmed substring after the last closing parenthesis if it contains
one; an empty candidate does not win, so the entry is skipped. -/
def chainStep2 (entry : String) : Option String :=
  if containsSub (lower entry) "biosynthetic" then
    let candidate :=
      if containsSub entry ":" then some (strip ((splitStr entry ':').getLastD ""))
      else if containsSub entry ")" then some (strip ((splitStr entry ')').getLastD ""))
      else none
    match candidate with
    | some c => if c = "" then none else some c
    | none => none
  else none

/-- Modelled from the spec (step 4 of the chain), literally: the first
`sec_met_domain` entry that contains an opening parenthesis yields
`"domain: "` plus the stripped text before the first parenthesis. -/
def chainStep4 (domains : List String) : Option String :=
  match domains.find? (fun d => containsSub d "(") with
  | some d => some ("domain: " ++ strip ((splitStr d '(').headD ""))
  | none => none

/-- Step 4 as the code actually behaves: an entry whose text before the
parenthesis strips to empty is skipped. -/
def chainStep4A (domains : List String) : Option String :=
  domains.findSome? (fun d =>
    if containsSub d "(" then
      let n := strip ((splitStr d '(').headD "")
      if n = "" then none else some ("domain: " ++ n)
    else none)

/-- The claim C4 chain, literally as stated. -/
def claimChain (q : Qualifiers) : String :=
  firstNonEmpty
    [ strip (firstQ q.product)
    , (q.gene_functions.findSome? chainStep2).getD ""
    , strip (firstQ q.gene_kind)
    , (chainStep4 q.sec_met_domain).getD "" ]

/-- The claim C4 chain with step 4 amended to skip entries whose text
before the parenthesis strips to empty. -/
def claimChainAmended (q : Qualifiers) : String :=
  firstNonEmpty
    [ strip (firstQ q.product)
    , (q.gene_functions.findSome? chainStep2).getD ""
    , strip (firstQ q.gene_kind)
    , (chainStep4A q.sec_met_domain).getD "" ]

/-! ### Concrete fixtures used by witnesses and counterexamples -/

/-- Spec example: product blank, biosynthetic gene_functions entry. -/
def fxEx1 : Qualifiers :=
  { product := [""]
    gene_functions := ["biosynthetic (smcogs) : polyketide synthase"]
    gene_kind := ["biosynthetic"] }

/-- Spec example: populated product short-circuits. -/
def fxEx2 : Qualifiers :=
  { product := ["hypothetical protein"], gene_kind := ["biosynthetic"] }

/-- A bag whose only signal is a `sec_met_domain` entry with nothing
before the parenthesis. -/
def fxQDomainOnly : Qualifiers := { sec_met_domain := ["(x)"] }

/-- A record with an explicitly empty gene qualifier next to a
populated locus tag. -/
def fxQ7 : Qualifiers := { gene := [""], locus_tag := ["L1"] }

/-- Feature carrying `fxQ7`. -/
def fxFeat7 : Feature := { ftype := "CDS", location := "[1:4](+)", qualifiers := fxQ7 }

/-- A record with no gene qualifier and a populated locus tag. -/
def fxQ7b : Qualifiers := { locus_tag := ["L1"] }

/-- Feature carrying `fxQ7b`. -/
def fxFeat7b : Feature := { ftype := "CDS", location := "[1:4](+)", qualifiers := fxQ7b }

/-- Primary-file CDS qualifiers for the reconciliation fixtures. -/
def fxQMain : Qualifiers :=
  { locus_tag := ["L1"], product := ["kinase"], translation := ["MK"] }

/-- Primary-file CDS feature. -/
def fxFeatMain : Feature :=
  { ftype := "CDS", location := "[10:20](+)", qualifiers := fxQMain }

/-- A primary `.gbk` file containing one CDS. -/
def fxMainFile : GbkFile :=
  { name := "main.gbk", stem := "main"
    records := [{ id := "rec1", seq_len := 100, features := [fxFeatMain] }] }

/-- Region-file CDS qualifiers carrying a more specific product. -/
def fxQRegion : Qualifiers :=
  { locus_tag := ["L1"], product := ["polyketide synthase"], translation := ["MK"] }

/-- Region-file CDS feature at the same identity key as `fxFeatMain`. -/
def fxFeatRegion : Feature :=
  { ftype := "CDS", location := "[10:20](+)", qualifiers := fxQRegion }

/-- The record of the region file. -/
def fxRecRegion : SeqRecord := { id := "rec1", seq_len := 100, features := [fxFeatRegion] }

/-- A region `.gbk` file overlapping `fxMainFile`. -/
def fxRegionFile : GbkFile :=
  { name := "NC_1.region001.gbk", stem := "NC_1.region001", records := [fxRecRegion] }

/-- A record yielded by a file that fails later in its iteration. -/
def fxBadRec : SeqRecord := { id := "recB", seq_len := 50, features := [fxFeatMain] }

/-- A file that yields one record and then raises: the lazy iterator
failed after `fxBadRec` was already processed. -/
def fxBadFile : GbkFile :=
  { name := "broken.gbk", stem := "broken", records := [fxBadRec], failed := true }

/-- A file that raises before yielding any record (unreadable or
malformed from the start). -/
def fxEmptyFile : GbkFile :=
  { name := "empty.gbk", stem := "empty", records := [], failed := true }

/-- Region-file CDS qualifiers from which no function string can be
derived (same key as `fxFeatMain`). -/
def fxQRegionEmpty : Qualifiers := { locus_tag := ["L1"], translation := ["MK"] }

/-- Region-file CDS feature with a blank derived product. -/
def fxFeatRegionEmpty : Feature :=
  { ftype := "CDS", location := "[10:20](+)", qualifiers := fxQRegionEmpty }

/-- The record of the uninformative region file. -/
def fxRecRegionEmpty : SeqRecord :=
  { id := "rec1", seq_len := 100, features := [fxFeatRegionEmpty] }

/-- A region `.gbk` file that describes the key but derives no product. -/
def fxRegionFileEmpty : GbkFile :=
  { name := "NC_1.region001.gbk", stem := "NC_1.region001"
    records := [fxRecRegionEmpty] }

/-- Cluster gene: biosynthetic gene_kind only. -/
def fxG1 : Feature :=
  { ftype := "CDS", location := "10-20", qualifiers := { gene_kind := ["biosynthetic"] } }

/-- Cluster gene: transporter product. -/
def fxG2 : Feature :=
  { ftype := "CDS", location := "30-40", qualifiers := { product := ["ABC transporter"] } }

/-- Cluster gene: regulatory product. -/
def fxG3 : Feature :=
  { ftype := "CDS", location := "50-60"
    qualifiers := { product := ["TetR family regulatory protein"] } }

/-- The region feature of the cluster fixture. -/
def fxRegionFeat : Feature :=
  { ftype := "region", location := "10-60", qualifiers := { product := ["NRPS", "T1PKS"] } }

/-- A multi-feature region record: a region feature, then the CDS that
overlaps `fxFeatMain`, then an unrelated CDS. -/
def fxRecRegion2 : SeqRecord :=
  { id := "rec1", seq_len := 100, features := [fxRegionFeat, fxFeatRegion, fxG1] }

/-- A region `.gbk` file whose record carries several features. -/
def fxRegionFile2 : GbkFile :=
  { name := "NC_1.region001.gbk", stem := "NC_1.region001", records := [fxRecRegion2] }

/-- The first record of the cluster fixture (45230 nt, three genes). -/
def fxRec8 : SeqRecord :=
  { id := "r1", seq_len := 45230, features := [fxRegionFeat, fxG1, fxG2, fxG3] }

/-- The region file of the cluster fixture. -/
def fxFile8 : GbkFile :=
  { name := "NC_1.region001.gbk", stem := "NC_1.region001", records := [fxRec8] }

/-- A region-file record yielding no region feature at all. -/
def fxRec10 : SeqRecord := { id := "r2", seq_len := 1000, features := [fxG1] }

/-- Its file. -/
def fxFile10 : GbkFile :=
  { name := "NC_2.region002.gbk", stem := "NC_2.region002", records := [fxRec10] }

/-! ### General list helpers -/

/-- A fold preserves any invariant its steps preserve. -/
lemma foldl_preserve {α β : Type} (f : α → β → α) (P : α → Prop) (l : List β) (a : α)
    (ha : P a) (h : ∀ x, ∀ b ∈ l, P x → P (f x b)) : P (l.foldl f a) := by
  induction l generalizing a with
  | nil => exact ha
  | cons b t ih =>
      exact ih (f a b) (h a b (List.mem_cons_self b t) ha)
        (fun x c hc hx => h x c (List.mem_cons_of_mem b hc) hx)

/-- Pointwise equal functions map lists identically. -/
lemma map_congr_mem {α β : Type} {l : List α} {f g : α → β}
    (h : ∀ a ∈ l, f a = g a) : l.map f = l.map g := by
  induction l with
  | nil => rfl
  | cons a t ih =>
      simp only [List.map_cons]
      rw [h a (List.mem_cons_self a t), ih (fun x hx => h x (List.mem_cons_of_mem a hx))]

/-- `find?` skips an appended element that fails the predicate. -/
lemma find?_append_singleton_neg {α : Type} (p : α → Bool) (l : List α) (x : α)
    (hx : p x = false) : (l ++ [x]).find? p = l.find? p := by
  induction l with
  | nil => simp [List.find?, hx]
  | cons a t ih =>
      cases ha : p a <;> simp [List.find?, ha, ih]

/-! ### Association-list (Python dict) lemmas -/

/-- Replacing the value at a key leaves the key sequence unchanged. -/
lemma map_fst_replace (m : ProteinMap) (k : String) (v : ProteinData) :
    (m.map (fun e => if e.1 == k then (k, v) else e)).map Prod.fst = m.map Prod.fst := by
  induction m with
  | nil => rfl
  | cons e t ih =>
      simp only [List.map_cons, ih, List.cons.injEq, and_true]
      by_cases he : (e.1 == k) = true
      · rw [if_pos he]
        exact (eq_of_beq he).symm
      · rw [if_neg he]

/-- Unfolding equation for `find?` on a keyed cons cell. -/
lemma find?_key_cons (k : String) (a : String × ProteinData) (t : ProteinMap) :
    (a :: t).find? (fun e => e.1 == k) =
      if a.1 = k then some a else t.find? (fun e => e.1 == k) := by
  by_cases h : a.1 = k
  · rw [if_pos h]
    exact List.find?_cons_of_pos _ (by simp [h])
  · rw [if_neg h]
    exact List.find?_cons_of_neg _ (by simp [h])

/-- `find?` passes over a prefix on which it fails. -/
lemma find?_append_right_of_none (p : String × ProteinData → Bool) (l₁ l₂ : ProteinMap)
    (h : l₁.find? p = none) : (l₁ ++ l₂).find? p = l₂.find? p := by
  induction l₁ with
  | nil => rfl
  | cons a t ih =>
      have hpa : ¬ p a = true := by
        intro hp
        rw [List.find?_cons_of_pos _ hp] at h
        exact absurd h (by simp)
      rw [List.find?_cons_of_neg _ hpa] at h
      simp only [List.cons_append]
      rw [List.find?_cons_of_neg _ hpa]
      exact ih h

/-- `alSet` keeps the keys without duplicates. -/
lemma alSet_keys_nodup (m : ProteinMap) (k : String) (v : ProteinData)
    (h : (m.map Prod.fst).Nodup) : ((alSet m k v).map Prod.fst).Nodup := by
  unfold alSet
  split
  · rw [map_fst_replace]; exact h
  · rename_i hany
    have hk : k ∉ m.map Prod.fst := by
      intro hmem
      rw [List.mem_map] at hmem
      obtain ⟨e, he, hek⟩ := hmem
      exact hany (List.any_eq_true.mpr ⟨e, he, by rw [hek]; exact beq_self_eq_true k⟩)
    rw [List.map_append]
    simp only [List.map_cons, List.map_nil]
    have hperm : ((m.map Prod.fst) ++ [k]).Perm (k :: m.map Prod.fst) :=
      List.perm_append_singleton k (m.map Prod.fst)
    rw [hperm.nodup_iff]
    exact List.nodup_cons.mpr ⟨hk, h⟩

/-- The pair just written is a member of the map. -/
lemma mem_alSet_self (m : ProteinMap) (k : String) (v : ProteinData) :
    (k, v) ∈ alSet m k v := by
  unfold alSet
  split
  · rename_i hany
    obtain ⟨e, he, hek⟩ := List.any_eq_true.mp hany
    rw [List.mem_map]
    exact ⟨e, he, by rw [if_pos hek]⟩
  · simp

/-- `alSet` preserves the invariant that each value's identity key is its
stored key, provided the written value matches its key. -/
lemma alSet_keyed_mem (m : ProteinMap) (k : String) (v : ProteinData)
    (h : ∀ e ∈ m, identityKey e.2 = e.1) (hv : identityKey v = k) :
    ∀ e ∈ alSet m k v, identityKey e.2 = e.1 := by
  unfold alSet
  split
  · intro e he
    rw [List.mem_map] at he
    obtain ⟨a, ha, rfl⟩ := he
    by_cases hak : (a.1 == k) = true
    · rw [if_pos hak]; exact hv
    · rw [if_neg hak]; exact h a ha
  · intro e he
    rcases List.mem_append.mp he with he | he
    · exact h e he
    · rw [List.mem_singleton] at he
      subst he
      exact hv

/-- A successful lookup comes from a member whose stored key matches. -/
lemma alGet?_eq_some_mem (m : ProteinMap) (k : String) (v : ProteinData)
    (h : alGet? m k = some v) : ∃ e ∈ m, e.1 = k ∧ e.2 = v := by
  unfold alGet? at h
  cases hf : m.find? (fun e => e.1 == k) with
  | none => rw [hf] at h; exact absurd h (by simp)
  | some e =>
      rw [hf] at h
      simp only [Option.map_some', Option.some.injEq] at h
      have hp : e.1 = k := by
        have := List.find?_some hf
        simpa using this
      exact ⟨e, List.mem_of_find?_eq_some hf, hp, h⟩

/-- After a replace, `find?` at the written key returns the new pair. -/
lemma find?_replace_self (m : ProteinMap) (k : String) (v : ProteinData)
    (hany : m.any (fun e => e.1 == k) = true) :
    (m.map (fun e => if e.1 == k then (k, v) else e)).find? (fun e => e.1 == k) = some (k, v) := by
  induction m with
  | nil => simp at hany
  | cons a t ih =>
      by_cases hak : a.1 = k
      · simp only [List.map_cons, if_pos (show (a.1 == k) = true by simp [hak])]
        rw [find?_key_cons]
        simp
      · have hakb : (a.1 == k) = false := by simp [hak]
        simp only [List.map_cons, if_neg (show ¬ (a.1 == k) = true by simp [hak])]
        rw [find?_key_cons, if_neg hak]
        apply ih
        simpa [List.any_cons, hakb] using hany

/-- Lookup of the key just written. -/
lemma alGet?_alSet_self (m : ProteinMap) (k : String) (v : ProteinData) :
    alGet? (alSet m k v) k = some v := by
  unfold alGet? alSet
  split
  · rename_i hany
    rw [find?_replace_self m k v hany]
    rfl
  · rename_i hany
    have hnone : m.find? (fun e => e.1 == k) = none := by
      rw [List.find?_eq_none]
      intro e he hpe
      exact hany (List.any_eq_true.mpr ⟨e, he, hpe⟩)
    rw [find?_append_right_of_none _ m [(k, v)] hnone, find?_key_cons]
    simp

/-- Replacing at one key does not change `find?` at a different key. -/
lemma find?_replace_ne (m : ProteinMap) (k k' : String) (v : ProteinData)
    (hne : k' ≠ k) :
    (m.map (fun e => if e.1 == k then (k, v) else e)).find? (fun e => e.1 == k') =
      m.find? (fun e => e.1 == k') := by
  induction m with
  | nil => rfl
  | cons a t ih =>
      by_cases hak : a.1 = k
      · simp only [List.map_cons, if_pos (show (a.1 == k) = true by simp [hak])]
        rw [find?_key_cons, find?_key_cons]
        rw [if_neg (show ¬ (k, v).1 = k' from fun h => hne h.symm)]
        rw [if_neg (show ¬ a.1 = k' by rw [hak]; exact fun h => hne h.symm)]
        exact ih
      · simp only [List.map_cons, if_neg (show ¬ (a.1 == k) = true by simp [hak])]
        rw [find?_key_cons, find?_key_cons]
        by_cases hak' : a.1 = k'
        · rw [if_pos hak', if_pos hak']
        · rw [if_neg hak', if_neg hak', ih]

/-- Writing one key does not change lookups at a different key. -/
lemma alGet?_alSet_ne (m : ProteinMap) (k k' : String) (v : ProteinData)
    (hne : k' ≠ k) : alGet? (alSet m k v) k' = alGet? m k' := by
  unfold alGet? alSet
  split
  · rw [find?_replace_ne m k k' v hne]
  · rw [find?_append_singleton_neg _ m (k, v)
      (by simp only []; exact beq_eq_false_iff_ne.mpr (fun h => hne h.symm))]

/-! ### The reconciliation invariant -/

/-- The dict invariant: keys are unique and each stored value's identity
key equals its key. -/
def keyedBy (m : ProteinMap) : Prop :=
  (m.map Prod.fst).Nodup ∧ ∀ e ∈ m, identityKey e.2 = e.1

lemma keyedBy_nil : keyedBy [] := ⟨List.nodup_nil, by intro e he; cases he⟩

lemma keyedBy_alSet (m : ProteinMap) (k : String) (v : ProteinData)
    (h : keyedBy m) (hv : identityKey v = k) : keyedBy (alSet m k v) :=
  ⟨alSet_keys_nodup m k v h.1, alSet_keyed_mem m k v h.2 hv⟩

lemma identityKey_cdsProtein (recId fileName : String) (feat : Feature) :
    identityKey (cdsProtein recId fileName feat) = cdsKey feat := rfl

lemma identityKey_regionMerge (old : ProteinData) (product fileName : String) :
    identityKey (regionMerge old product fileName) = identityKey old := by
  unfold regionMerge identityKey
  split <;> rfl

lemma keyedBy_mainStep (fileName recId : String) (m : ProteinMap) (feat : Feature)
    (h : keyedBy m) : keyedBy (mainStep fileName recId m feat) := by
  unfold mainStep
  split
  · exact keyedBy_alSet m _ _ h (identityKey_cdsProtein recId fileName feat)
  · exact h

lemma keyedBy_regionStep (fileName recId : String) (m : ProteinMap) (feat : Feature)
    (h : keyedBy m) : keyedBy (regionStep fileName recId m feat) := by
  unfold regionStep
  split
  · cases hget : alGet? m (cdsKey feat) with
    | some old =>
        obtain ⟨e, he, hek, hev⟩ := alGet?_eq_some_mem m _ old hget
        have hko : identityKey old = cdsKey feat := by
          rw [← hev, h.2 e he, hek]
        apply keyedBy_alSet m _ _ h
        rw [identityKey_regionMerge, hko]
    | none =>
        exact keyedBy_alSet m _ _ h (identityKey_cdsProtein recId fileName feat)
  · exact h

lemma keyedBy_processMainFile (m : ProteinMap) (f : GbkFile)
    (h : keyedBy m) : keyedBy (processMainFile m f) := by
  unfold processMainFile
  apply foldl_preserve _ keyedBy _ _ h
  intro x rec _ hx
  apply foldl_preserve _ keyedBy _ _ hx
  intro y feat _ hy
  exact keyedBy_mainStep f.name rec.id y feat hy

lemma keyedBy_processRegionFile (m : ProteinMap) (f : GbkFile)
    (h : keyedBy m) : keyedBy (processRegionFile m f) := by
  unfold processRegionFile
  apply foldl_preserve _ keyedBy _ _ h
  intro x rec _ hx
  apply foldl_preserve _ keyedBy _ _ hx
  intro y feat _ hy
  exact keyedBy_regionStep f.name rec.id y feat hy

lemma keyedBy_mainPass (files : List GbkFile) :
    keyedBy (files.foldl processMainFile []) := by
  apply foldl_preserve _ keyedBy _ _ keyedBy_nil
  intro x f _ hx
  exact keyedBy_processMainFile x f hx

lemma keyedBy_parse (files : List GbkFile) :
    keyedBy
      ((files.filter (fun f => isRegionGbk f.name)).foldl processRegionFile
        ((files.filter (fun f => isMainGbk f.name)).foldl processMainFile [])) := by
  apply foldl_preserve _ keyedBy _ _ (keyedBy_mainPass _)
  intro x f _ hx
  exact keyedBy_processRegionFile x f hx

/-! ### Claim C1 -/

/-- Claim C1: for every run directory, the reconciled protein collection
returned by `parse_gbk_for_proteins` contains no two entries with the
same identity key `gene ++ "_" ++ location`: exactly one reconciled
protein exists per identity key, regardless of how many primary and
region files described overlapping records. -/
theorem claim_C1_unique_identity_keys (files : List GbkFile) :
    (parse_gbk_for_proteins files).Pairwise
      (fun p q => p.gene ++ "_" ++ p.location ≠ q.gene ++ "_" ++ q.location) := by
  obtain ⟨hnd, hmem⟩ := keyedBy_parse files
  unfold parse_gbk_for_proteins
  set m := (files.filter (fun f => isRegionGbk f.name)).foldl processRegionFile
    ((files.filter (fun f => isMainGbk f.name)).foldl processMainFile []) with hm
  have hkeys : (m.map (fun e => e.2)).map (fun p => p.gene ++ "_" ++ p.location) =
      m.map Prod.fst := by
    rw [List.map_map]
    exact map_congr_mem (fun e he => hmem e he)
  have hnd2 : ((m.map (fun e => e.2)).map (fun p => p.gene ++ "_" ++ p.location)).Nodup := by
    rw [hkeys]; exact hnd
  rw [List.Nodup, List.pairwise_map] at hnd2
  exact hnd2

/-! ### Claim C5 -/

/-- Line 127 is the exact negation of line 128 (De Morgan). -/
lemma isMain_eq_not_region (name : String) : isMainGbk name = !(isRegionGbk name) := by
  unfold isMainGbk isRegionGbk
  cases startsWith "NC_" name <;> cases containsSub name "region" <;> rfl

/-- A predicate and its negation split a list's length. -/
lemma length_filter_not_add {α : Type} (q : α → Bool) (l : List α) :
    (l.filter (fun a => !(q a))).length + (l.filter q).length = l.length := by
  induction l with
  | nil => rfl
  | cons a t ih => cases hq : q a <;> simp [List.filter_cons, hq, ← ih] <;> omega

/-- Claim C5: every `.gbk` file is classified as exactly one of two
kinds — a region file when its name starts with the accession prefix
`"NC_"` and contains the case-sensitive substring `"region"`, a primary
file otherwise; the two filters are complementary (so disjoint and
jointly covering, witnessed by the length identity), and the cluster
aggregator (line 255) uses the same region predicate as the
reconciliation pass (line 128). -/
theorem claim_C5_partition (files : List GbkFile) (name : String) :
    isMainGbk name = !(isRegionGbk name) ∧
    (files.filter (fun f => isMainGbk f.name)).length +
      (files.filter (fun f => isRegionGbk f.name)).length = files.length ∧
    isRegionGbkClusters name = isRegionGbk name := by
  refine ⟨isMain_eq_not_region name, ?_, rfl⟩
  have hfun : (fun f : GbkFile => isMainGbk f.name) =
      (fun f : GbkFile => !(isRegionGbk f.name)) :=
    funext (fun f => isMain_eq_not_region f.name)
  rw [hfun]
  exact length_filter_not_add _ files

/-! ### Claim C6 -/

/-- A file yielding no record leaves the protein accumulator untouched
(main pass). -/
lemma processMainFile_nilrec (f : GbkFile) (h : f.records = []) (m : ProteinMap) :
    processMainFile m f = m := by
  unfold processMainFile recordsOf
  rw [h]
  rfl

/-- A file yielding no record leaves the protein accumulator untouched
(region pass). -/
lemma processRegionFile_nilrec (f : GbkFile) (h : f.records = []) (m : ProteinMap) :
    processRegionFile m f = m := by
  unfold processRegionFile recordsOf
  rw [h]
  rfl

/-- A file yielding no record contributes no cluster. -/
lemma clustersStep_nilrec (f : GbkFile) (h : f.records = []) (clusters : List ClusterInfo) :
    (match recordsOf f with
     | [] => clusters
     | rec :: _ => clusters ++ [buildCluster f rec]) = clusters := by
  unfold recordsOf
  rw [h]

/-- A middle element on which the fold step is the identity can be
dropped from a filtered fold. -/
lemma filtered_foldl_middle_skip {α : Type} (g : α → GbkFile → α) (P : GbkFile → Bool)
    (l1 l2 : List GbkFile) (f : GbkFile) (hg : ∀ x, g x f = x) (a : α) :
    (((l1 ++ [f]) ++ l2).filter P).foldl g a = ((l1 ++ l2).filter P).foldl g a := by
  rw [List.filter_append, List.filter_append, List.filter_append]
  cases hP : P f with
  | false => simp [List.filter_cons, hP]
  | true =>
      simp only [List.filter_cons, hP, List.filter_nil, if_true]
      have hmid : ∀ (A B : List GbkFile) (x : α),
          ((A ++ [f]) ++ B).foldl g x = (A ++ B).foldl g x := by
        intro A B x
        rw [List.foldl_append, List.foldl_append, List.foldl_cons, List.foldl_nil, hg,
          ← List.foldl_append]
      exact hmid _ _ a

/-- `filter` commutes with mapping `clearFailed` for any predicate that
ignores the flag. -/
lemma filter_map_clearFailed (Q : GbkFile → Bool) (h : ∀ g, Q (clearFailed g) = Q g)
    (l : List GbkFile) :
    (l.map clearFailed).filter Q = (l.filter Q).map clearFailed := by
  induction l with
  | nil => rfl
  | cons a t ih =>
      simp only [List.map_cons, List.filter_cons, h a, ih]
      cases hQ : Q a <;> simp [hQ]

/-- Counterexample for C6 as stated: `fxBadFile` is malformed — its
iteration raises after yielding one record — yet the protein of that
record is present in the result, so the file's contributions are not
"simply absent". -/
theorem claim_C6_counterexample :
    fxBadFile.failed = true ∧
    parse_gbk_for_proteins [fxBadFile] = [cdsProtein "recB" "broken.gbk" fxFeatMain] ∧
    parse_gbk_for_proteins [fxBadFile] ≠ [] :=
  ⟨rfl, by decide, by decide⟩

/-- Claim C6 (amended): a malformed or unreadable file never aborts
either pass.  The failure flag is irrelevant to both results (the
exception is swallowed after the yielded records were processed), and a
file that raises before yielding any record contributes nothing while
every other file is still processed. -/
theorem claim_C6_amended (files l1 l2 : List GbkFile) (f : GbkFile) :
    (parse_gbk_for_proteins files = parse_gbk_for_proteins (files.map clearFailed) ∧
      parse_clusters_from_regions files = parse_clusters_from_regions (files.map clearFailed)) ∧
    (f.records = [] →
      parse_gbk_for_proteins (l1 ++ [f] ++ l2) = parse_gbk_for_proteins (l1 ++ l2) ∧
      parse_clusters_from_regions (l1 ++ [f] ++ l2) = parse_clusters_from_regions (l1 ++ l2)) := by
  constructor
  · constructor
    · simp only [parse_gbk_for_proteins]
      rw [filter_map_clearFailed (fun g => isMainGbk g.name) (fun g => rfl) files,
          filter_map_clearFailed (fun g => isRegionGbk g.name) (fun g => rfl) files,
          List.foldl_map, List.foldl_map]
      have h1 : (fun (x : ProteinMap) (y : GbkFile) => processMainFile x (clearFailed y)) =
          processMainFile := funext fun x => funext fun y => rfl
      have h2 : (fun (x : ProteinMap) (y : GbkFile) => processRegionFile x (clearFailed y)) =
          processRegionFile := funext fun x => funext fun y => rfl
      rw [h1, h2]
    · simp only [parse_clusters_from_regions]
      rw [filter_map_clearFailed (fun g => isRegionGbkClusters g.name) (fun g => rfl) files,
          List.foldl_map]
      have h3 : (fun (x : List ClusterInfo) (y : GbkFile) =>
            match recordsOf (clearFailed y) with
            | [] => x
            | rec :: _ => x ++ [buildCluster (clearFailed y) rec]) =
          (fun (x : List ClusterInfo) (y : GbkFile) =>
            match recordsOf y with
            | [] => x
            | rec :: _ => x ++ [buildCluster y rec]) := funext fun x => funext fun y => rfl
      rw [h3]
  · intro hnil
    constructor
    · simp only [parse_gbk_for_proteins]
      rw [filtered_foldl_middle_skip processMainFile (fun g => isMainGbk g.name) l1 l2 f
            (processMainFile_nilrec f hnil),
          filtered_foldl_middle_skip processRegionFile (fun g => isRegionGbk g.name) l1 l2 f
            (processRegionFile_nilrec f hnil)]
    · simp only [parse_clusters_from_regions]
      rw [filtered_foldl_middle_skip _ (fun g => isRegionGbkClusters g.name) l1 l2 f
            (clustersStep_nilrec f hnil)]

/-- Witness for C6's amended claim: a file raising before its first
record contributes nothing, the other file is still processed. -/
theorem claim_C6_witness :
    parse_gbk_for_proteins [fxMainFile, fxEmptyFile] = parse_gbk_for_proteins [fxMainFile] ∧
    parse_clusters_from_regions [fxMainFile, fxEmptyFile] =
      parse_clusters_from_regions [fxMainFile] :=
  (claim_C6_amended [] [fxMainFile] [] fxEmptyFile).2 rfl

/-! ### Claims C2 and C3 -/

/-- Splitting a run listing made of primary files followed by region
files under the two classification filters. -/
lemma filter_split (mains regions : List GbkFile)
    (hm : ∀ f ∈ mains, isRegionGbk f.name = false)
    (hr : ∀ f ∈ regions, isRegionGbk f.name = true) :
    (mains ++ regions).filter (fun f => isMainGbk f.name) = mains ∧
    (mains ++ regions).filter (fun f => isRegionGbk f.name) = regions := by
  constructor
  · rw [List.filter_append]
    have h1 : mains.filter (fun f => isMainGbk f.name) = mains :=
      List.filter_eq_self.mpr (fun f hf => by rw [isMain_eq_not_region, hm f hf]; rfl)
    have h2 : regions.filter (fun f => isMainGbk f.name) = [] := by
      rw [List.filter_eq_nil_iff]
      intro f hf
      rw [isMain_eq_not_region, hr f hf]
      simp
    rw [h1, h2, List.append_nil]
  · rw [List.filter_append]
    have h1 : mains.filter (fun f => isRegionGbk f.name) = [] := by
      rw [List.filter_eq_nil_iff]
      intro f hf
      simp [hm f hf]
    have h2 : regions.filter (fun f => isRegionGbk f.name) = regions :=
      List.filter_eq_self.mpr (fun f hf => hr f hf)
    rw [h1, h2, List.nil_append]

/-- A region-pass step at a feature that is not a CDS at key `k` leaves
the entry at `k` unchanged. -/
lemma regionStep_get_skip (fileName recId : String) (m : ProteinMap) (feat : Feature)
    (k : String) (h : ¬(lower feat.ftype = "cds" ∧ cdsKey feat = k)) :
    alGet? (regionStep fileName recId m feat) k = alGet? m k := by
  unfold regionStep
  by_cases hcds : lower feat.ftype = "cds"
  · rw [if_pos hcds]
    have hne : k ≠ cdsKey feat := fun he => h ⟨hcds, he.symm⟩
    cases hg : alGet? m (cdsKey feat) with
    | some old => rw [alGet?_alSet_ne _ _ _ _ hne]
    | none => rw [alGet?_alSet_ne _ _ _ _ hne]
  · rw [if_neg hcds]

/-- A feature list with no CDS at key `k` leaves the entry at `k`
unchanged. -/
lemma feats_fold_get_skip (fileName recId k : String) (feats : List Feature) :
    ∀ m : ProteinMap, (∀ ft ∈ feats, ¬(lower ft.ftype = "cds" ∧ cdsKey ft = k)) →
      alGet? (feats.foldl (regionStep fileName recId) m) k = alGet? m k := by
  induction feats with
  | nil => intro m _; rfl
  | cons a t ih =>
      intro m h
      rw [List.foldl_cons, ih _ (fun ft hf => h ft (List.mem_cons_of_mem a hf)),
        regionStep_get_skip fileName recId m a k (h a (List.mem_cons_self a t))]

/-- A record list with no CDS at key `k` leaves the entry at `k`
unchanged. -/
lemma recs_fold_get_skip (fileName k : String) (recs : List SeqRecord) :
    ∀ m : ProteinMap,
      (∀ rc ∈ recs, ∀ ft ∈ rc.features, ¬(lower ft.ftype = "cds" ∧ cdsKey ft = k)) →
      alGet? (recs.foldl
        (fun acc rc => rc.features.foldl (regionStep fileName rc.id) acc) m) k =
        alGet? m k := by
  induction recs with
  | nil => intro m _; rfl
  | cons a t ih =>
      intro m h
      rw [List.foldl_cons, ih _ (fun rc hrc ft hft => h rc (List.mem_cons_of_mem a hrc) ft hft),
        feats_fold_get_skip fileName a.id k a.features m (h a (List.mem_cons_self a t))]

/-- Region files with no CDS at key `k` leave the entry at `k`
unchanged. -/
lemma files_fold_get_skip (k : String) (fs : List GbkFile) :
    ∀ m : ProteinMap,
      (∀ f ∈ fs, ∀ rc ∈ recordsOf f, ∀ ft ∈ rc.features,
        ¬(lower ft.ftype = "cds" ∧ cdsKey ft = k)) →
      alGet? (fs.foldl processRegionFile m) k = alGet? m k := by
  induction fs with
  | nil => intro m _; rfl
  | cons a t ih =>
      intro m h
      rw [List.foldl_cons, ih _ (fun f hf => h f (List.mem_cons_of_mem a hf))]
      show alGet? ((recordsOf a).foldl
        (fun acc rc => rc.features.foldl (regionStep a.name rc.id) acc) m) k = alGet? m k
      exact recs_fold_get_skip a.name k (recordsOf a) m (h a (List.mem_cons_self a t))

/-- Claim C2: for an identity key `k` produced by the primary pass and
described by a region file, the final record carries the region-derived
product when it is non-blank, with `source_file` equal to the primary
record's source followed by `" + "` and the region file's name.  The
run shape is arbitrary — any primary files, any number of region files
before and after `r`, any records and features around the matching CDS
— with only the requirement, presupposed by the claim's singular "the
region file" and its single composite source, that `k` is described by
exactly one region CDS occurrence. -/
theorem claim_C2_region_wins (mains regions1 regions2 : List GbkFile) (r : GbkFile)
    (recs1 recs2 : List SeqRecord) (rec : SeqRecord)
    (feats1 feats2 : List Feature) (feat : Feature) (k pn : String) (p0 : ProteinData)
    (hm : ∀ f ∈ mains, isRegionGbk f.name = false)
    (hr : ∀ f ∈ regions1 ++ [r] ++ regions2, isRegionGbk f.name = true)
    (hrec : r.records = recs1 ++ [rec] ++ recs2)
    (hfeat : rec.features = feats1 ++ [feat] ++ feats2)
    (hcds : lower feat.ftype = "cds")
    (hkey : cdsKey feat = k)
    (hprod : strip ( extract_functional_annotation feat.qualifiers) ≠ "")
    (honly1 : ∀ f ∈ regions1 ++ regions2, ∀ rc ∈ recordsOf f, ∀ ft ∈ rc.features,
      ¬(lower ft.ftype = "cds" ∧ cdsKey ft = k))
    (honly2 : ∀ rc ∈ recs1 ++ recs2, ∀ ft ∈ rc.features,
      ¬(lower ft.ftype = "cds" ∧ cdsKey ft = k))
    (honly3 : ∀ ft ∈ feats1 ++ feats2, ¬(lower ft.ftype = "cds" ∧ cdsKey ft = k))
    (hget : alGet? (mains.foldl processMainFile []) k = some p0)
    (hpn : p0.source_file = pn) :
    ∃ p ∈ parse_gbk_for_proteins (mains ++ (regions1 ++ [r] ++ regions2)),
      identityKey p = k ∧
      p.product = extract_functional_annotation feat.qualifiers ∧
      p.source_file = pn ++ " + " ++ r.name := by
  obtain ⟨hfm, hfr⟩ := filter_split mains (regions1 ++ [r] ++ regions2) hm hr
  simp only [parse_gbk_for_proteins]
  rw [hfm, hfr]
  set m0 := mains.foldl processMainFile [] with hm0def
  have hk0 : identityKey p0 = k := by
    obtain ⟨e, he, hek, hev⟩ := alGet?_eq_some_mem _ _ _ hget
    rw [← hev, (keyedBy_mainPass mains).2 e he, hek]
  set v : ProteinData := { p0 with
    product := extract_functional_annotation feat.qualifiers,
    source_file := p0.source_file ++ " + " ++ r.name } with hvdef
  rw [List.foldl_append, List.foldl_append, List.foldl_cons, List.foldl_nil]
  set m1 := regions1.foldl processRegionFile m0 with hm1def
  have hget1 : alGet? m1 k = some p0 := by
    rw [hm1def,
      files_fold_get_skip k regions1 m0
        (fun f hf => honly1 f (List.mem_append.mpr (Or.inl hf)))]
    exact hget
  have hfile : processRegionFile m1 r =
      recs2.foldl (fun acc rc => rc.features.foldl (regionStep r.name rc.id) acc)
        (rec.features.foldl (regionStep r.name rec.id)
          (recs1.foldl
            (fun acc rc => rc.features.foldl (regionStep r.name rc.id) acc) m1)) := by
    show (recordsOf r).foldl
      (fun acc rc => rc.features.foldl (regionStep r.name rc.id) acc) m1 = _
    rw [show recordsOf r = recs1 ++ [rec] ++ recs2 from hrec,
      List.foldl_append, List.foldl_append, List.foldl_cons, List.foldl_nil]
  set m2 := recs1.foldl
    (fun acc rc => rc.features.foldl (regionStep r.name rc.id) acc) m1 with hm2def
  have hget2 : alGet? m2 k = some p0 := by
    rw [hm2def,
      recs_fold_get_skip r.name k recs1 m1
        (fun rc hrc => honly2 rc (List.mem_append.mpr (Or.inl hrc)))]
    exact hget1
  have hrfold : rec.features.foldl (regionStep r.name rec.id) m2 =
      feats2.foldl (regionStep r.name rec.id)
        (regionStep r.name rec.id (feats1.foldl (regionStep r.name rec.id) m2) feat) := by
    rw [hfeat, List.foldl_append, List.foldl_append, List.foldl_cons, List.foldl_nil]
  set m3 := feats1.foldl (regionStep r.name rec.id) m2 with hm3def
  have hget3 : alGet? m3 k = some p0 := by
    rw [hm3def,
      feats_fold_get_skip r.name rec.id k feats1 m2
        (fun ft hf => honly3 ft (List.mem_append.mpr (Or.inl hf)))]
    exact hget2
  have hstep : regionStep r.name rec.id m3 feat = alSet m3 k v := by
    unfold regionStep
    rw [if_pos hcds, hkey, hget3]
    simp only [regionMerge, if_pos hprod]
  have hget4 : alGet? (regionStep r.name rec.id m3 feat) k = some v := by
    rw [hstep]
    exact alGet?_alSet_self m3 k v
  have hget5 : alGet? (feats2.foldl (regionStep r.name rec.id)
      (regionStep r.name rec.id m3 feat)) k = some v := by
    rw [feats_fold_get_skip r.name rec.id k feats2 _
      (fun ft hf => honly3 ft (List.mem_append.mpr (Or.inr hf)))]
    exact hget4
  have hget6 : alGet? (processRegionFile m1 r) k = some v := by
    rw [hfile, recs_fold_get_skip r.name k recs2 _
        (fun rc hrc => honly2 rc (List.mem_append.mpr (Or.inr hrc))),
      hrfold]
    exact hget5
  have hget7 : alGet? (regions2.foldl processRegionFile (processRegionFile m1 r)) k =
      some v := by
    rw [files_fold_get_skip k regions2 _
      (fun f hf => honly1 f (List.mem_append.mpr (Or.inr hf)))]
    exact hget6
  obtain ⟨e, he, hek, hev⟩ := alGet?_eq_some_mem _ _ _ hget7
  refine ⟨v, List.mem_map.mpr ⟨e, he, hev⟩, ?_, rfl, ?_⟩
  · show p0.gene ++ "_" ++ p0.location = k
    exact hk0
  · show p0.source_file ++ " + " ++ r.name = pn ++ " + " ++ r.name
    rw [hpn]

/-- Claim C3: a key inserted by the primary pass keeps its
primary-derived product whenever no region file derives a non-blank
function string for it (in particular when no region file describes the
key at all); a populated product never regresses to empty. -/
theorem claim_C3_primary_product_retained (mains regions : List GbkFile)
    (k : String) (p0 : ProteinData)
    (hm : ∀ f ∈ mains, isRegionGbk f.name = false)
    (hr : ∀ f ∈ regions, isRegionGbk f.name = true)
    (hget : alGet? (mains.foldl processMainFile []) k = some p0)
    (hreg : ∀ f ∈ regions, ∀ rec ∈ recordsOf f, ∀ feat ∈ rec.features,
        lower feat.ftype = "cds" → cdsKey feat = k →
        strip ( extract_functional_annotation feat.qualifiers) = "") :
    ∃ p ∈ parse_gbk_for_proteins (mains ++ regions),
      identityKey p = k ∧ p.product = p0.product := by
  obtain ⟨hfm, hfr⟩ := filter_split mains regions hm hr
  simp only [parse_gbk_for_proteins]
  rw [hfm, hfr]
  set m0 := mains.foldl processMainFile [] with hm0def
  have hk0 : identityKey p0 = k := by
    obtain ⟨e, he, hek, hev⟩ := alGet?_eq_some_mem _ _ _ hget
    rw [← hev, (keyedBy_mainPass mains).2 e he, hek]
  have hinv : ∃ p, alGet? (regions.foldl processRegionFile m0) k = some p ∧
      p.product = p0.product ∧ identityKey p = k := by
    apply foldl_preserve _
      (fun m => ∃ p, alGet? m k = some p ∧ p.product = p0.product ∧ identityKey p = k)
      _ _ ⟨p0, hget, rfl, hk0⟩
    intro m f hf hPm
    show ∃ p, alGet? ((recordsOf f).foldl
      (fun acc rec => rec.features.foldl (regionStep f.name rec.id) acc) m) k = some p ∧
      p.product = p0.product ∧ identityKey p = k
    apply foldl_preserve _
      (fun m => ∃ p, alGet? m k = some p ∧ p.product = p0.product ∧ identityKey p = k)
      _ _ hPm
    intro m1 rec hrecmem hPm1
    apply foldl_preserve _
      (fun m => ∃ p, alGet? m k = some p ∧ p.product = p0.product ∧ identityKey p = k)
      _ _ hPm1
    intro m2 feat hfeatmem hPm2
    obtain ⟨p, hp, hprodp, hkeyp⟩ := hPm2
    by_cases hcds : lower feat.ftype = "cds"
    · by_cases hkk : cdsKey feat = k
      · have hempty := hreg f hf rec hrecmem feat hfeatmem hcds hkk
        refine ⟨regionMerge p ( extract_functional_annotation feat.qualifiers) f.name, ?_, ?_, ?_⟩
        · unfold regionStep
          rw [if_pos hcds, hkk, hp]
          exact alGet?_alSet_self m2 k _
        · unfold regionMerge
          rw [if_neg (fun hc => hc hempty)]
          exact hprodp
        · rw [identityKey_regionMerge]
          exact hkeyp
      · have hne : k ≠ cdsKey feat := fun h => hkk h.symm
        refine ⟨p, ?_, hprodp, hkeyp⟩
        unfold regionStep
        rw [if_pos hcds]
        cases hget2 : alGet? m2 (cdsKey feat) with
        | some old => rw [alGet?_alSet_ne m2 (cdsKey feat) k _ hne]; exact hp
        | none => rw [alGet?_alSet_ne m2 (cdsKey feat) k _ hne]; exact hp
    · refine ⟨p, ?_, hprodp, hkeyp⟩
      unfold regionStep
      rw [if_neg hcds]
      exact hp
  obtain ⟨p, hp, hprodp, hkeyp⟩ := hinv
  obtain ⟨e, he, hek, hev⟩ := alGet?_eq_some_mem _ _ _ hp
  exact ⟨p, List.mem_map.mpr ⟨e, he, hev⟩, hkeyp, hprodp⟩

/-- Witness for C2 at a concrete run whose region file carries a region
feature, the overlapping CDS, and an unrelated CDS. -/
theorem claim_C2_witness :
    ∃ p ∈ parse_gbk_for_proteins [fxMainFile, fxRegionFile2],
      identityKey p = "L1_[10:20](+)" ∧
      p.product = "polyketide synthase" ∧
      p.source_file = "main.gbk + NC_1.region001.gbk" := by
  have h := claim_C2_region_wins [fxMainFile] [] [] fxRegionFile2 [] [] fxRecRegion2
    [fxRegionFeat] [fxG1] fxFeatRegion "L1_[10:20](+)" "main.gbk"
    (cdsProtein "rec1" "main.gbk" fxFeatMain)
    (by decide) (by decide) rfl rfl (by decide) (by decide) (by decide)
    (by decide) (by decide) (by decide) (by decide) (by decide)
  obtain ⟨p, hmem, h1, h2, h3⟩ := h
  refine ⟨p, hmem, h1, ?_, ?_⟩
  · rw [h2]; decide
  · rw [h3]; decide

/-- Witness for C3 at a concrete two-file run whose region file derives
no product for the shared key. -/
theorem claim_C3_witness :
    ∃ p ∈ parse_gbk_for_proteins [fxMainFile, fxRegionFileEmpty],
      identityKey p = "L1_[10:20](+)" ∧ p.product = "kinase" := by
  have h := claim_C3_primary_product_retained [fxMainFile] [fxRegionFileEmpty]
    "L1_[10:20](+)" (cdsProtein "rec1" "main.gbk" fxFeatMain)
    (by decide) (by decide) (by decide) (by decide)
  obtain ⟨p, hmem, h1, h2⟩ := h
  exact ⟨p, hmem, h1, by rw [h2]; decide⟩

/-! ### Claim C4 -/

/-- Step 2 of the claim's chain agrees with the code's loop body. -/
lemma chainStep2_eq (s : String) : chainStep2 s = funcTypeOf s := by
  unfold chainStep2 funcTypeOf
  by_cases hb : containsSub (lower s) "biosynthetic" = true
  · rw [if_pos hb, if_pos hb]
    by_cases hc : containsSub s ":" = true
    · rw [if_pos hc, if_pos hc]
      by_cases he : strip ((splitStr s ':').getLastD "") = ""
      · simp [he]
      · simp [he]
    · rw [if_neg hc, if_neg hc]
      by_cases hp : containsSub s ")" = true
      · rw [if_pos hp, if_pos hp]
        by_cases he : strip ((splitStr s ')').getLastD "") = ""
        · simp [he]
        · simp [he]
      · rw [if_neg hp, if_neg hp]
  · rw [if_neg hb, if_neg hb]

/-- The amended step 4 agrees with the code's `sec_met_domain` loop. -/
lemma chainStep4A_eq (l : List String) : chainStep4A l = l.findSome? domainNameOf := by
  unfold chainStep4A
  congr 1
  funext d
  unfold domainNameOf
  by_cases h : containsSub d "(" = true
  · rw [if_pos h, if_pos h]
    by_cases h2 : strip ((splitStr d '(').headD "") = ""
    · rw [if_pos h2, if_neg (fun hc => hc h2)]
    · rw [if_neg h2, if_pos h2]
  · rw [if_neg h, if_neg h]

/-- The code's accepted `gene_functions` values are never empty. -/
lemma funcTypeOf_some_ne {s t : String} (h : funcTypeOf s = some t) : t ≠ "" := by
  unfold funcTypeOf at h
  by_cases hb : containsSub (lower s) "biosynthetic" = true
  · rw [if_pos hb] at h
    by_cases hc : containsSub s ":" = true
    · rw [if_pos hc] at h
      by_cases he : strip ((splitStr s ':').getLastD "") = ""
      · rw [if_neg (fun hx => hx he)] at h
        exact absurd h (by simp)
      · rw [if_pos he] at h
        rw [Option.some.injEq] at h
        rw [← h]
        exact he
    · rw [if_neg hc] at h
      by_cases hp : containsSub s ")" = true
      · rw [if_pos hp] at h
        by_cases he : strip ((splitStr s ')').getLastD "") = ""
        · rw [if_neg (fun hx => hx he)] at h
          exact absurd h (by simp)
        · rw [if_pos he] at h
          rw [Option.some.injEq] at h
          rw [← h]
          exact he
      · rw [if_neg hp] at h
        exact absurd h (by simp)
  · rw [if_neg hb] at h
    exact absurd h (by simp)

/-- The code's accepted `sec_met_domain` values are never empty. -/
lemma domainNameOf_some_ne {s d : String} (h : domainNameOf s = some d) : d ≠ "" := by
  unfold domainNameOf at h
  by_cases hc : containsSub s "(" = true
  · rw [if_pos hc] at h
    by_cases he : strip ((splitStr s '(').headD "") = ""
    · rw [if_neg (fun hx => hx he)] at h
      exact absurd h (by simp)
    · rw [if_pos he] at h
      rw [Option.some.injEq] at h
      rw [← h]
      intro hcon
      have hlen := congrArg String.length hcon
      rw [String.length_append] at hlen
      have h8 : ("domain: ").length = 8 := rfl
      have h0 : ("" : String).length = 0 := rfl
      rw [h8, h0] at hlen
      omega
  · rw [if_neg hc] at h
    exact absurd h (by simp)

/-- Values produced by `findSome?` over a never-empty-producing function
are non-empty. -/
lemma findSome?_ne_of {f : String → Option String}
    (hf : ∀ s t, f s = some t → t ≠ "") :
    ∀ (l : List String) (t : String), l.findSome? f = some t → t ≠ "" := by
  intro l
  induction l with
  | nil => intro t h; simp at h
  | cons a rest ih =>
      intro t h
      rw [List.findSome?_cons] at h
      cases hfa : f a with
      | some b => rw [hfa] at h; cases h; exact hf a t hfa
      | none => rw [hfa] at h; exact ih t h

/-- Unfolding equation for `firstNonEmpty`. -/
lemma firstNonEmpty_cons (s : String) (rest : List String) :
    firstNonEmpty (s :: rest) = if s = "" then firstNonEmpty rest else s := rfl

/-- An empty head is skipped. -/
lemma firstNonEmpty_empty_cons (rest : List String) :
    firstNonEmpty ("" :: rest) = firstNonEmpty rest := by
  rw [firstNonEmpty_cons, if_pos rfl]

/-- The extractor equals the amended claim chain on every qualifier bag. -/
lemma extract_eq_chainAmended (q : Qualifiers) :
    extract_functional_annotation q = claimChainAmended q := by
  unfold extract_functional_annotation claimChainAmended
  rw [show chainStep2 = funcTypeOf from funext chainStep2_eq, chainStep4A_eq]
  by_cases h1 : strip (firstQ q.product) = ""
  · rw [if_neg (fun hc => hc h1), firstNonEmpty_cons, if_pos h1]
    cases hf : q.gene_functions.findSome? funcTypeOf with
    | some t =>
        have ht : t ≠ "" := findSome?_ne_of (fun s u hu => funcTypeOf_some_ne hu) _ t hf
        rw [Option.getD_some, firstNonEmpty_cons, if_neg ht]
    | none =>
        rw [Option.getD_none, firstNonEmpty_empty_cons]
        by_cases h3 : strip (firstQ q.gene_kind) = ""
        · rw [if_neg (fun hc => hc h3), firstNonEmpty_cons, if_pos h3]
          cases hd : q.sec_met_domain.findSome? domainNameOf with
          | some d =>
              have hdne : d ≠ "" :=
                findSome?_ne_of (fun s u hu => domainNameOf_some_ne hu) _ d hd
              rw [Option.getD_some, firstNonEmpty_cons, if_neg hdne]
          | none =>
              rw [Option.getD_none, firstNonEmpty_empty_cons]
              rfl
        · rw [if_pos h3, firstNonEmpty_cons, if_neg h3]
  · rw [if_pos h1, firstNonEmpty_cons, if_neg h1]

/-- Counterexample for C4 as stated: on a bag whose only signal is the
`sec_met_domain` entry `"(x)"`, the code returns `""` while the claim's
literal chain (step 4 takes the first entry containing a parenthesis)
returns `"domain: "`. -/
theorem claim_C4_counterexample :
    extract_functional_annotation fxQDomainOnly = "" ∧
    claimChain fxQDomainOnly = "domain: " ∧
    extract_functional_annotation fxQDomainOnly ≠ claimChain fxQDomainOnly :=
  ⟨by decide, by decide, by decide⟩

/-- Claim C4 (amended): the extractor returns the first non-empty result
of the fixed chain, with step 4 restricted to `sec_met_domain` entries
whose text before the first parenthesis does not strip to empty; and the
two concrete examples of the spec hold as stated. -/
theorem claim_C4_amended :
    (∀ q : Qualifiers, extract_functional_annotation q = claimChainAmended q) ∧
    extract_functional_annotation fxEx1 = "polyketide synthase" ∧
    extract_functional_annotation fxEx2 = "hypothetical protein" :=
  ⟨extract_eq_chainAmended, by decide, by decide⟩

/-! ### Claim C7 -/

/-- Counterexample for C7 as stated: with an explicitly empty `gene`
qualifier (`gene = [""]`) next to the populated locus tag `"L1"`, the
parsed gene field is empty even though the record provides a non-empty
locus tag — `dict.get` only falls back when the key is absent. -/
theorem claim_C7_counterexample :
    geneOf fxQ7 = "" ∧ firstQ fxQ7.locus_tag = "L1" ∧
    (cdsProtein "r1" "f.gbk" fxFeat7).gene = "" :=
  ⟨by decide, by decide, by decide⟩

/-- Claim C7 (amended): the gene field of a parsed CDS — in the
reconciliation records and in the cluster gene summaries — equals the
first `gene` qualifier value when that key is present (even if empty),
and otherwise defaults to the record's first locus tag; hence gene is
non-empty whenever the record provides a non-empty locus tag and no
explicit `gene` qualifier. -/
theorem claim_C7_amended (recId fileName : String) (feat : Feature) :
    (cdsProtein recId fileName feat).gene = geneOf feat.qualifiers ∧
    (clusterGene feat).gene = geneOf feat.qualifiers ∧
    (feat.qualifiers.gene ≠ [] → geneOf feat.qualifiers = feat.qualifiers.gene.headD "") ∧
    (feat.qualifiers.gene = [] → geneOf feat.qualifiers = firstQ feat.qualifiers.locus_tag) ∧
    (feat.qualifiers.gene = [] → firstQ feat.qualifiers.locus_tag ≠ "" →
      (cdsProtein recId fileName feat).gene ≠ "") := by
  refine ⟨rfl, rfl, ?_, ?_, ?_⟩
  · intro hg
    unfold geneOf
    rw [getQ, if_neg hg]
  · intro hg
    unfold geneOf firstQ
    rw [getQ, if_pos hg]
  · intro hg hl
    show geneOf feat.qualifiers ≠ ""
    unfold geneOf
    rw [getQ, if_pos hg]
    exact hl

/-- Witness for C7's amended claim at a record with no `gene` qualifier
and locus tag `"L1"`. -/
theorem claim_C7_witness :
    (cdsProtein "r1" "f.gbk" fxFeat7b).gene = geneOf fxFeat7b.qualifiers ∧
    geneOf fxFeat7b.qualifiers = "L1" ∧
    (cdsProtein "r1" "f.gbk" fxFeat7b).gene ≠ "" := by
  refine ⟨(claim_C7_amended "r1" "f.gbk" fxFeat7b).1, by decide, ?_⟩
  exact (claim_C7_amended "r1" "f.gbk" fxFeat7b).2.2.2.2 (by decide) (by decide)

/-! ### Claim C8 -/

/-- Claim C8: in every ClusterSummary, `biosynthetic_genes` counts
exactly the genes whose `gene_kind` equals `"biosynthetic"` by exact
match, and `regulatory_genes` / `transport_genes` count exactly the
genes whose derived product contains `"regulatory"` / `"transport"`
case-insensitively; on the concrete cluster with genes
`[{gene_kind: "biosynthetic"}, {product: "ABC transporter"},
{product: "TetR family regulatory protein"}]` the counts are 1, 1, 1. -/
theorem claim_C8_classification_counts (f : GbkFile) (rec : SeqRecord) :
    ((buildCluster f rec).biosynthetic_genes =
        ((buildCluster f rec).genes.filter (fun g => g.gene_kind == "biosynthetic")).length ∧
      (buildCluster f rec).regulatory_genes =
        ((buildCluster f rec).genes.filter
          (fun g => containsSub (lower g.product) "regulatory")).length ∧
      (buildCluster f rec).transport_genes =
        ((buildCluster f rec).genes.filter
          (fun g => containsSub (lower g.product) "transport")).length) ∧
    ((buildCluster fxFile8 fxRec8).biosynthetic_genes = 1 ∧
      (buildCluster fxFile8 fxRec8).transport_genes = 1 ∧
      (buildCluster fxFile8 fxRec8).regulatory_genes = 1) :=
  ⟨⟨rfl, rfl, rfl⟩, ⟨by decide, by decide, by decide⟩⟩

/-! ### Claim C10 -/

/-- Coordinate parsing never touches `products`, `cluster_type` or
`genes`. -/
lemma parseLocInto_products (acc : ClusterAcc) (location : String) :
    (parseLocInto acc location).products = acc.products ∧
    (parseLocInto acc location).cluster_type = acc.cluster_type := by
  unfold parseLocInto
  repeat' split
  all_goals exact ⟨rfl, rfl⟩

/-- One feature step preserves the `cluster_type` shape invariant. -/
lemma clusterStep_ctype (acc : ClusterAcc) (feat : Feature)
    (h : (acc.products = [] ∧ acc.cluster_type = "unknown") ∨
      acc.cluster_type = joinWith " + " acc.products) :
    ((clusterStep acc feat).products = [] ∧ (clusterStep acc feat).cluster_type = "unknown") ∨
      (clusterStep acc feat).cluster_type = joinWith " + " (clusterStep acc feat).products := by
  unfold clusterStep
  by_cases hr : lower feat.ftype = "region"
  · rw [if_pos hr]
    by_cases hprod : feat.qualifiers.product = []
    · rw [if_neg (fun hc => hc hprod)]
      obtain ⟨h1, h2⟩ := parseLocInto_products acc feat.location
      rw [h1, h2]
      exact h
    · rw [if_pos hprod]
      obtain ⟨h1, h2⟩ := parseLocInto_products
        { acc with products := feat.qualifiers.product,
                   cluster_type := joinWith " + " feat.qualifiers.product } feat.location
      rw [h1, h2]
      exact Or.inr rfl
  · rw [if_neg hr]
    by_cases hcds : lower feat.ftype = "cds"
    · rw [if_pos hcds]
      exact h
    · rw [if_neg hcds]
      exact h

/-- One feature step preserves "no products seen yet" when the feature
cannot contribute products. -/
lemma clusterStep_unknown (acc : ClusterAcc) (feat : Feature)
    (hfeat : lower feat.ftype = "region" → feat.qualifiers.product = [])
    (h : acc.products = [] ∧ acc.cluster_type = "unknown") :
    (clusterStep acc feat).products = [] ∧ (clusterStep acc feat).cluster_type = "unknown" := by
  unfold clusterStep
  by_cases hr : lower feat.ftype = "region"
  · rw [if_pos hr, if_neg (fun hc => hc (hfeat hr))]
    obtain ⟨h1, h2⟩ := parseLocInto_products acc feat.location
    rw [h1, h2]
    exact h
  · rw [if_neg hr]
    by_cases hcds : lower feat.ftype = "cds"
    · rw [if_pos hcds]
      exact h
    · rw [if_neg hcds]
      exact h

/-- Claim C10: when the first record of a region file yields no
region-type feature with a non-empty product list, the ClusterSummary
keeps `products = []` and the literal `cluster_type = "unknown"` (not
the empty string); and whenever `products` is non-empty, `cluster_type`
is the `" + "`-join of `products`. -/
theorem claim_C10_unknown_cluster_type (f : GbkFile) (rec : SeqRecord) :
    ((∀ feat ∈ rec.features, lower feat.ftype = "region" → feat.qualifiers.product = []) →
      (buildCluster f rec).products = [] ∧ (buildCluster f rec).cluster_type = "unknown") ∧
    ((buildCluster f rec).products ≠ [] →
      (buildCluster f rec).cluster_type = joinWith " + " (buildCluster f rec).products) := by
  constructor
  · intro hall
    exact foldl_preserve clusterStep
      (fun acc => acc.products = [] ∧ acc.cluster_type = "unknown") rec.features
      { products := [], cluster_type := "unknown", genes := []
        location_start := none, location_end := none }
      ⟨rfl, rfl⟩
      (fun x feat hmem hx => clusterStep_unknown x feat (hall feat hmem) hx)
  · intro hne
    have hinv := foldl_preserve clusterStep
      (fun acc => (acc.products = [] ∧ acc.cluster_type = "unknown") ∨
        acc.cluster_type = joinWith " + " acc.products) rec.features
      { products := [], cluster_type := "unknown", genes := []
        location_start := none, location_end := none }
      (Or.inl ⟨rfl, rfl⟩)
      (fun x feat hmem hx => clusterStep_ctype x feat hx)
    cases hinv with
    | inl h => exact absurd (show (buildCluster f rec).products = [] from h.1) hne
    | inr h => exact h

/-- Witness for C10: a region file without region features keeps
`"unknown"`, and the two-product fixture joins with `" + "`. -/
theorem claim_C10_witness :
    ((buildCluster fxFile10 fxRec10).products = [] ∧
      (buildCluster fxFile10 fxRec10).cluster_type = "unknown") ∧
    (buildCluster fxFile8 fxRec8).cluster_type =
      joinWith " + " (buildCluster fxFile8 fxRec8).products := by
  constructor
  · exact (claim_C10_unknown_cluster_type fxFile10 fxRec10).1 (by decide)
  · exact (claim_C10_unknown_cluster_type fxFile8 fxRec8).2 (by decide)

end AntismashWeb
